import Mathlib

/-!
Verification of the nanodbc binding/retrieval engine.

A shallow embedding of the parts of `src/nanodbc/nanodbc.h` that the
checked properties speak about: the error taxonomy, the `batch_ops`
configuration value, the shared-ownership `result` handle, the rowset
cursor navigator, the on-demand `get`/`is_null` retrieval path, the
parameter binder, and the inline `result_iterator`.

The repository snapshot contains only the public header; the bodies of
`result_impl`/`statement_impl` live in a source file that is not part of
the snapshot.  Definitions for those operations are therefore modelled
from the specification document (each such definition says so in its doc
comment).  `batch_ops`, `result_iterator::operator++`, the
`result_iterator(result&)` constructor, `operator==`, and `begin`/`end`
are defined inline in the header and are translated from that code
directly.
-/

namespace Nanodbc

/-- SQL data values travelling through the marshaling layer; a cell of a
row is `Option Value`, with `none` standing for SQL NULL. -/
inductive Value where
  | intV (n : Int)
  | strV (s : String)
deriving DecidableEq, Repr

/-- Error taxonomy, from nanodbc.h lines 289-343: the four local contract
errors plus the native `database_error`. -/
inductive odbc_error where
  | type_incompatible_error
  | null_access_error
  | index_range_error
  | programming_error
  | database_error
deriving DecidableEq, Repr

/-- Local contract errors are every kind except `database_error`
(spec section 7: local violations are detected before any native call). -/
def odbc_error.is_local : odbc_error → Bool
  | .database_error => false
  | _ => true

/-- ODBC parameter direction, nanodbc.h lines 831-837. -/
inductive param_direction where
  | PARAM_IN
  | PARAM_OUT
  | PARAM_INOUT
  | PARAM_RETURN
deriving DecidableEq, Repr

/-- The `batch_ops` configuration value, nanodbc.h lines 366-377: two
`long` fields, a default constructor setting both to `-1L`, and a
single-argument constructor setting both to the given value. -/
structure batch_ops where
  parameter_array_length : Int
  rowset_size : Int
deriving DecidableEq, Repr

/-- The default constructor `batch_ops()`, nanodbc.h lines 371-373. -/
def batch_ops.mkDefault : batch_ops :=
  { parameter_array_length := -1, rowset_size := -1 }

/-- The single-argument constructor `batch_ops(const long all_length)`,
nanodbc.h lines 374-376. -/
def batch_ops.mkAll (all_length : Int) : batch_ops :=
  { parameter_array_length := all_length, rowset_size := all_length }

/-- Column metadata record (spec section 3, ColumnMetadata; surfaced by
the `column_*` accessors of nanodbc.h lines 2006-2071). -/
structure column_desc where
  name : String
  sqltype : Int
  ctype : Int
  size : Nat
  decimal_digits : Nat
  is_long : Bool
deriving DecidableEq, Repr

/-- One pending result set of a multi-result execution (consumed by
`next_result`). -/
structure result_set_data where
  meta : List column_desc
  rows : List (List (Option Value))
deriving DecidableEq, Repr

/-- Modelled from the spec: the shared `result_impl` state behind a
`result` handle (nanodbc.h line 2091 declares only
`std::shared_ptr<result_impl> impl_`; the class body is not in the
snapshot).  Fields follow spec section 3 (RowsetCursor, BoundBuffer,
ColumnMetadata) and section 4.4: `rows` is the fetched data, `bound`
says which columns have an eagerly bound buffer, `indBuf` is the
per-column indicator buffer for the current row (true = marks null),
`indValid` records whether an on-demand read has populated the
indicator for the current row, `pos` is the 1-based row position with
0 = before-first, and `at_end` is the after-last flag. -/
structure result_impl where
  columnsMeta : List column_desc
  rows : List (List (Option Value))
  bound : List Bool
  indBuf : List Bool
  indValid : List Bool
  pos : Nat
  at_end : Bool
  rowCount : Option Nat
  moreResults : List result_set_data
  stmtHandle : Nat
deriving DecidableEq, Repr

instance : Inhabited result_impl :=
  ⟨{ columnsMeta := [], rows := [], bound := [], indBuf := [], indValid := [],
     pos := 0, at_end := false, rowCount := none, moreResults := [], stmtHandle := 0 }⟩

/-- Number of columns of the current result set (`result::columns`,
nanodbc.h line 1782). -/
def result_impl.columns (s : result_impl) : Nat :=
  s.columnsMeta.length

/-- The row the cursor is positioned on (empty when not positioned). -/
def result_impl.currentRow (s : result_impl) : List (Option Value) :=
  s.rows.getD (s.pos - 1) []

/-- The cell of the current row in column `c`. -/
def result_impl.cell (s : result_impl) (c : Nat) : Option Value :=
  s.currentRow.getD c none

/-- Modelled from the spec: a successful positioning operation moves the
cursor to row `p` and re-populates every currently bound column buffer
for the new row (spec section 4.5), writing the indicator for bound
columns; indicators of unbound columns keep their previous (possibly
stale) contents and their on-demand flags are cleared for the new row. -/
def result_impl.populate (s : result_impl) (p : Nat) : result_impl :=
  let row := s.rows.getD (p - 1) []
  { s with
    pos := p
    at_end := false
    indBuf := (List.range s.columnsMeta.length).map (fun c =>
      if s.bound.getD c false then (row.getD c none).isNone else s.indBuf.getD c false)
    indValid := s.indValid.map (fun _ => false) }

/-- Modelled from the spec: `result::first` (nanodbc.h line 1787, body not
in the snapshot): fetches the first row; on an empty result it returns
false and enters the after-last state (spec section 8). -/
def result_impl.first (s : result_impl) : Bool × result_impl :=
  if s.rows.isEmpty then (false, { s with at_end := true })
  else (true, s.populate 1)

/-- Modelled from the spec: `result::last` (nanodbc.h line 1792). -/
def result_impl.last (s : result_impl) : Bool × result_impl :=
  if s.rows.isEmpty then (false, { s with at_end := true })
  else (true, s.populate s.rows.length)

/-- Modelled from the spec: `result::next` (nanodbc.h line 1797, body not
in the snapshot): forward moves return false and enter after-last when no
row is available (spec section 4.5), and further calls keep returning
false without raising. -/
def result_impl.next (s : result_impl) : Bool × result_impl :=
  if s.at_end = false ∧ s.pos < s.rows.length then (true, s.populate (s.pos + 1))
  else (false, { s with at_end := true })

/-- Modelled from the spec: `result::prior` (nanodbc.h line 1815):
backward moves past the start fail silently-false without changing the
cursor (spec section 4.5); from the after-last state the last row is
fetched again. -/
def result_impl.prior (s : result_impl) : Bool × result_impl :=
  if s.at_end = false ∧ 1 < s.pos then (true, s.populate (s.pos - 1))
  else if s.at_end = true ∧ 0 < s.rows.length then (true, s.populate s.rows.length)
  else (false, s)

/-- Modelled from the spec: `result::move` (nanodbc.h line 1820) performs
an absolute positioning fetch of the given 0-based row, returning false
if the target is outside the result. -/
def result_impl.move (s : result_impl) (row : Int) : Bool × result_impl :=
  let t : Int := row + 1
  if t < 1 then (false, s)
  else if t ≤ (s.rows.length : Int) then (true, s.populate t.toNat)
  else (false, { s with at_end := true })

/-- Modelled from the spec: `result::skip` (nanodbc.h line 1825) performs
a relative positioning fetch. -/
def result_impl.skip (s : result_impl) (rows : Int) : Bool × result_impl :=
  let t : Int := (s.pos : Int) + rows
  if t < 1 then (false, s)
  else if t ≤ (s.rows.length : Int) then (true, s.populate t.toNat)
  else (false, { s with at_end := true })

/-- Modelled from the spec: `result::next_result` (nanodbc.h line 2074,
body not in the snapshot): discards the current cursor/column
metadata/buffers and reinitializes from the next result set, returning
false (with nothing discarded) when no further result set exists
(spec section 4.5). -/
def result_impl.next_result (s : result_impl) : Bool × result_impl :=
  match s.moreResults with
  | [] => (false, s)
  | rs :: rest =>
    (true,
     { columnsMeta := rs.meta
       rows := rs.rows
       bound := rs.meta.map (fun cd => !cd.is_long)
       indBuf := rs.meta.map (fun _ => false)
       indValid := rs.meta.map (fun _ => false)
       pos := 0
       at_end := false
       rowCount := s.rowCount
       moreResults := rest
       stmtHandle := s.stmtHandle })

/-- Modelled from the spec: `result::affected_rows` (nanodbc.h lines
1763-1765): the affected-row count, or -1 if the count is not
available. -/
def result_impl.affected_rows (s : result_impl) : Int :=
  match s.rowCount with
  | some n => (n : Int)
  | none => -1

/-- Modelled from the spec: `result::has_affected_rows` (nanodbc.h lines
1767-1775): reports whether the number of affected rows is available,
regardless of its value. -/
def result_impl.has_affected_rows (s : result_impl) : Bool :=
  s.rowCount.isSome

/-- Modelled from the spec: `result::is_null` (nanodbc.h lines 1962-1975,
body not in the snapshot): reports the contents of the indicator buffer
for the current row; an out-of-range column index fails with
`index_range_error`.  The header documents that for unbound
variable-length columns the indicator may only be populated once
`SQLGetData` has been issued for the column in the current row, so the
reported value may be stale before the first `get`. -/
def result_impl.is_null (s : result_impl) (c : Nat) : Except odbc_error Bool :=
  if c < s.columns then .ok (s.indBuf.getD c false)
  else .error .index_range_error

/-- Modelled from the spec: `result::get` without fallback (nanodbc.h
lines 1916-1925, body not in the snapshot).  For a bound column, the
current-row bytes and indicator are already in the bound buffer; for an
unbound column, an on-demand chunked read is issued first, which writes
the true indicator for the column in the current row.  The (possibly
updated) indicator is then consulted: if it marks null, the call fails
with `null_access_error`; otherwise the buffered value is returned (an
inconsistent stale indicator on a bound column would make the code read
whatever bytes sit in the buffer, modelled by a default value). -/
def result_impl.get (s : result_impl) (c : Nat) : Except odbc_error Value × result_impl :=
  if c < s.columns then
    let s1 := if s.bound.getD c false then s
      else { s with
             indBuf := s.indBuf.set c (s.cell c).isNone
             indValid := s.indValid.set c true }
    if s1.indBuf.getD c false then (.error .null_access_error, s1)
    else
      match s.cell c with
      | some v => (.ok v, s1)
      | none => (.ok (Value.intV 0), s1)
  else (.error .index_range_error, s)

/-- Modelled from the spec: `result::get` with a fallback value
(nanodbc.h lines 1927-1938): performs the plain `get` and catches
`null_access_error`, returning the fallback instead (spec section 4.4:
"unless a fallback default was supplied, in which case the fallback is
returned instead"). -/
def result_impl.get_or (s : result_impl) (c : Nat) (fallback : Value) :
    Except odbc_error Value × result_impl :=
  let r := s.get c
  match r.1 with
  | .error .null_access_error => (.ok fallback, r.2)
  | o => (o, r.2)

/-- The indicator buffer of column `c` agrees with the data actually in
the current row. -/
def result_impl.indicator_ok (s : result_impl) (c : Nat) : Prop :=
  s.indBuf.getD c false = (s.cell c).isNone

/-- Reliability invariant established by the fetch/get operations: for
every column that is bound, or whose on-demand indicator has been
populated for the current row, the indicator buffer agrees with the
data.  Unbound columns before their first `get` are exactly the ones
exempted (the documented driver quirk, nanodbc.h lines 1964-1968). -/
def result_impl.WF (s : result_impl) : Prop :=
  ∀ c : Nat, c < s.columns →
    (s.bound.getD c false = true ∨ s.indValid.getD c false = true) →
    s.indicator_ok c

instance (s : result_impl) : Decidable s.WF := by
  unfold result_impl.WF result_impl.indicator_ok
  exact Nat.decidableBallLT _ _

/-- For every `batch_ops` configuration value: default construction sets
both fields to the sentinel -1, the single-argument constructor sets
both fields to the given value, and the two fields are independently
settable (every combination is representable).  [C7] -/
theorem batch_ops_fields_and_defaults :
    (batch_ops.mkDefault.parameter_array_length = -1 ∧ batch_ops.mkDefault.rowset_size = -1)
    ∧ (∀ v : Int, (batch_ops.mkAll v).parameter_array_length = v
        ∧ (batch_ops.mkAll v).rowset_size = v)
    ∧ (∀ a b : Int, ∃ x : batch_ops, x.parameter_array_length = a ∧ x.rowset_size = b) :=
  ⟨⟨rfl, rfl⟩, fun _ => ⟨rfl, rfl⟩, fun a b => ⟨⟨a, b⟩, rfl, rfl⟩⟩

/-- Writing a cell of a list and reading it back at the same in-range
index yields the written value. -/
theorem getD_set_self {α : Type} (l : List α) (n : Nat) (v b : α) (hb : n < l.length) :
    (l.set n v).getD n b = v := by
  induction l generalizing n with
  | nil => simp at hb
  | cons a t ih =>
    cases n with
    | zero => simp [List.getD]
    | succ m =>
      have hm : m < t.length := by simpa using hb
      simpa [List.getD] using ih m hm

/-- The outcome of `get` is determined by the current cell once the
indicator buffer agrees with the data for the requested column. -/
theorem get_fst_of_indicator_ok (s : result_impl) (c : Nat)
    (hc : c < s.columns) (hclen : c < s.indBuf.length)
    (hkey : s.indBuf.getD c false = (s.cell c).isNone) :
    (s.get c).1 = if (s.cell c).isNone then .error .null_access_error
      else .ok ((s.cell c).getD (Value.intV 0)) := by
  unfold result_impl.get
  rw [if_pos hc]
  cases hb : s.bound.getD c false with
  | true =>
    simp only [hb, if_true]
    rw [hkey]
    cases hcell : s.cell c <;> simp [hcell]
  | false =>
    simp only [hb, Bool.false_eq_true, if_false]
    have hset : (s.indBuf.set c (s.cell c).isNone).getD c false = (s.cell c).isNone :=
      getD_set_self _ _ _ _ hclen
    simp only [hset]
    cases hcell : s.cell c <;> simp [hcell]

/-- For a result positioned on a row and a column whose indicator is
reliable (the column is bound, or its on-demand indicator has already
been populated for the current row), `is_null` returns true exactly when
`get` without fallback fails with `null_access_error`; and when a
fallback is supplied, `get` never fails with `null_access_error` and
returns the fallback whenever `is_null` reports null.  Unbound
variable-length columns before their first `get` are exactly the states
the reliability hypothesis excludes — the documented exception.  [C1] -/
theorem is_null_consistent_with_get (s : result_impl) (c : Nat)
    (hc : c < s.columns)
    (hbuf : s.columns ≤ s.indBuf.length)
    (hpos : 1 ≤ s.pos ∧ s.pos ≤ s.rows.length ∧ s.at_end = false)
    (hrel : s.bound.getD c false = true ∨ s.indValid.getD c false = true)
    (hwf : s.WF) :
    (s.is_null c = .ok true ↔ (s.get c).1 = .error .null_access_error)
    ∧ (∀ fb, (s.get_or c fb).1 ≠ .error .null_access_error)
    ∧ (∀ fb, s.is_null c = .ok true → (s.get_or c fb).1 = .ok fb) := by
  have hkey : s.indBuf.getD c false = (s.cell c).isNone := hwf c hc hrel
  have hclen : c < s.indBuf.length := lt_of_lt_of_le hc hbuf
  have hfst := get_fst_of_indicator_ok s c hc hclen hkey
  have hnull : s.is_null c = .ok ((s.cell c).isNone) := by
    unfold result_impl.is_null
    rw [if_pos hc, hkey]
  refine ⟨?_, ?_, ?_⟩
  · rw [hnull, hfst]
    cases hcell : s.cell c <;> simp [hcell]
  · intro fb
    unfold result_impl.get_or
    cases hcell : s.cell c <;> simp [hcell] at hfst <;> simp [hfst]
  · intro fb hn
    rw [hnull] at hn
    have hcell : (s.cell c).isNone = true := Except.ok.inj hn
    unfold result_impl.get_or
    simp [hfst, hcell]

/-- A one-column, one-row result whose single cell is NULL, with the
column bound and the indicator populated by the fetch. -/
def exNullResult : result_impl :=
  { columnsMeta := [{ name := "a", sqltype := 4, ctype := 4, size := 4,
                      decimal_digits := 0, is_long := false }]
    rows := [[none]]
    bound := [true]
    indBuf := [true]
    indValid := [false]
    pos := 1
    at_end := false
    rowCount := some 1
    moreResults := []
    stmtHandle := 1 }

/-- Witness for [C1] at a concrete null cell: `is_null` reports null,
`get` without fallback fails with `null_access_error`, and `get` with a
fallback returns the fallback. -/
theorem is_null_consistent_with_get_witness :
    exNullResult.is_null 0 = .ok true
    ∧ (exNullResult.get 0).1 = .error .null_access_error
    ∧ (exNullResult.get_or 0 (Value.intV 7)).1 = .ok (Value.intV 7) := by
  have h := is_null_consistent_with_get exNullResult 0 (by decide) (by decide)
    ⟨by decide, by decide, by decide⟩ (Or.inl (by decide)) (by decide)
  have hnull : exNullResult.is_null 0 = .ok true := rfl
  exact ⟨hnull, h.1.mp hnull, h.2.2 (Value.intV 7) hnull⟩

/-- For every result: `first` on an empty result returns false and
leaves the cursor in the after-last state; `next` past the last row
returns false, enters after-last, and every subsequent `next` also
returns false without changing the state further (the model functions
are total, so no error is raised); `prior` at or before the first row
returns false and leaves the state untouched.  [C3] -/
theorem cursor_boundary_semantics (s : result_impl) :
    (s.rows = [] → s.first.1 = false ∧ s.first.2.at_end = true)
    ∧ (s.rows.length ≤ s.pos →
        s.next.1 = false ∧ s.next.2.at_end = true ∧ s.next.2.next = (false, s.next.2))
    ∧ (s.at_end = false → s.pos ≤ 1 → s.prior = (false, s)) := by
  refine ⟨?_, ?_, ?_⟩
  · intro h
    simp [result_impl.first, h]
  · intro h
    have hnot : ¬ s.pos < s.rows.length := Nat.not_lt.mpr h
    simp [result_impl.next, hnot]
  · intro h1 h2
    have hnot : ¬ 1 < s.pos := Nat.not_lt.mpr h2
    unfold result_impl.prior
    simp [h1, hnot]

/-- An empty result set: no columns, no rows, cursor before-first. -/
def exEmptyResult : result_impl :=
  { columnsMeta := [], rows := [], bound := [], indBuf := [], indValid := [],
    pos := 0, at_end := false, rowCount := some 0, moreResults := [], stmtHandle := 2 }

/-- Witness for [C3] on a concrete empty result: `first` fails into
after-last, `next` keeps returning false, `prior` is a silent no-op. -/
theorem cursor_boundary_semantics_witness :
    exEmptyResult.first.1 = false ∧ exEmptyResult.first.2.at_end = true
    ∧ exEmptyResult.next.1 = false ∧ exEmptyResult.next.2.next.1 = false
    ∧ exEmptyResult.prior = (false, exEmptyResult) := by
  have h := cursor_boundary_semantics exEmptyResult
  have h1 := h.1 rfl
  have h2 := h.2.1 (by decide)
  have h3 := h.2.2 rfl (by decide)
  exact ⟨h1.1, h1.2, h2.1, by rw [h2.2.2], h3⟩

/-- For a result produced by an execution yielding exactly one result
set (no further pending result sets), `next_result` returns false and
leaves the state — in particular the column metadata: count, names,
types, sizes — exactly as it was.  [C6] -/
theorem next_result_single_result_noop (s : result_impl)
    (hone : s.moreResults = []) :
    s.next_result = (false, s)
    ∧ s.next_result.2.columnsMeta = s.columnsMeta
    ∧ s.next_result.2.columns = s.columns := by
  unfold result_impl.next_result
  simp [hone]

/-- Witness for [C6]: on a concrete single-result-set state,
`next_result` returns false and the metadata is unchanged. -/
theorem next_result_single_result_noop_witness :
    exNullResult.next_result = (false, exNullResult)
    ∧ exNullResult.next_result.2.columnsMeta = exNullResult.columnsMeta := by
  have h := next_result_single_result_noop exNullResult rfl
  exact ⟨h.1, h.2.1⟩

/-- For every result, `has_affected_rows` returns true exactly when
`affected_rows` is nonnegative, and `affected_rows` returns -1 exactly
when the count is unavailable.  [C9] -/
theorem has_affected_rows_iff_nonneg (s : result_impl) :
    (s.has_affected_rows = true ↔ 0 ≤ s.affected_rows)
    ∧ (s.affected_rows = -1 ↔ s.rowCount = none) := by
  unfold result_impl.has_affected_rows result_impl.affected_rows
  cases h : s.rowCount with
  | none => simp
  | some n =>
    constructor
    · simp [Int.natCast_nonneg]
    · simp

/-- A store of `result_impl` states; a `result` handle holds a pointer
into it, mirroring `std::shared_ptr<result_impl> impl_`
(nanodbc.h line 2091). -/
def Heap : Type := Nat → result_impl

/-- Pointwise update of one shared state. -/
def Heap.update (h : Heap) (p : Nat) (s : result_impl) : Heap :=
  fun n => if n = p then s else h n

/-- The public `result` object: just a (possibly null) shared pointer to
the interior state (nanodbc.h lines 1736-2092).  The default-constructed
result is the empty, invalid one (nanodbc.h line 1740). -/
structure result_handle where
  impl_ : Option Nat
deriving DecidableEq, Repr

/-- The default constructor `result()`: an empty result with no shared
state. -/
def result_handle.empty : result_handle := ⟨none⟩

/-- `result::operator bool` (nanodbc.h line 2077): valid exactly when a
shared state is attached. -/
def result_handle.valid (r : result_handle) : Bool :=
  r.impl_.isSome

/-- The copy constructor `result(const result&)` (nanodbc.h line 1746):
copies the shared pointer, so the copy refers to the same interior
state; no new interior state is created. -/
def result_copy (r : result_handle) : result_handle :=
  ⟨r.impl_⟩

/-- `result& operator=(result)` (nanodbc.h line 1752): after assignment
the destination holds the shared pointer of the source. -/
def result_assign (_dst src : result_handle) : result_handle :=
  ⟨src.impl_⟩

/-- `result::native_statement_handle` (nanodbc.h line 1758), read from
the shared state; 0 for the invalid result. -/
def native_stmt_handle (h : Heap) (r : result_handle) : Nat :=
  match r.impl_ with
  | some p => (h p).stmtHandle
  | none => 0

/-- The positioning operations of the cursor navigator
(nanodbc.h lines 1787-1825). -/
inductive nav_op where
  | first
  | last
  | next
  | prior
  | move (row : Int)
  | skip (rows : Int)
deriving DecidableEq, Repr

/-- Dispatch a positioning operation on the interior state. -/
def nav_apply (op : nav_op) (s : result_impl) : Bool × result_impl :=
  match op with
  | .first => s.first
  | .last => s.last
  | .next => s.next
  | .prior => s.prior
  | .move row => s.move row
  | .skip rows => s.skip rows

/-- A positioning call through a `result` handle: navigating an invalid
(default-constructed) result is a local contract violation guarded by an
explicit valid check (spec section 4.5); otherwise the shared state is
read, stepped, and written back. -/
def hnav (h : Heap) (r : result_handle) (op : nav_op) :
    Except odbc_error (Bool × Heap) :=
  match r.impl_ with
  | none => .error .programming_error
  | some p =>
    let bs := nav_apply op (h p)
    .ok (bs.1, h.update p bs.2)

/-- The row position observed through a handle (`result::position`,
nanodbc.h line 1828). -/
def hposition (h : Heap) (r : result_handle) : Option Nat :=
  r.impl_.map (fun p => (h p).pos)

/-- For every valid result and every copy of it (copy construction or
assignment): the copy holds the same shared pointer (no deep copy), a
positioning operation performed through the copy is the same operation
on the same shared state as through the original, and the position that
each of the two handles observes afterwards is identical — mutation
through one is visible through the other, in both directions.  [C2] -/
theorem result_copies_share_state (h : Heap) (r : result_handle)
    (op : nav_op) (p : Nat) (hv : r.impl_ = some p) :
    (result_copy r).impl_ = r.impl_
    ∧ (∀ d : result_handle, (result_assign d r).impl_ = r.impl_)
    ∧ hnav h (result_copy r) op = hnav h r op
    ∧ (∃ b h2, hnav h (result_copy r) op = .ok (b, h2)
        ∧ hposition h2 r = hposition h2 (result_copy r)
        ∧ hposition h2 r = some ((nav_apply op (h p)).2.pos))
    ∧ (∀ b h2, hnav h r op = .ok (b, h2) →
        hposition h2 (result_copy r) = hposition h2 r) := by
  have hcopy : result_copy r = r := rfl
  refine ⟨rfl, fun d => rfl, by rw [hcopy], ?_, ?_⟩
  · refine ⟨(nav_apply op (h p)).1, Heap.update h p (nav_apply op (h p)).2, ?_, rfl, ?_⟩
    · rw [hcopy]
      unfold hnav
      rw [hv]
    · unfold hposition Heap.update
      rw [hv]
      simp
  · intro b h2 _
    rw [hcopy]

/-- A concrete two-state heap: pointer 1 holds `exNullResult`, all other
pointers hold the empty state. -/
def exHeap : Heap :=
  fun n => if n = 1 then exNullResult else exEmptyResult

/-- A valid handle onto pointer 1 of `exHeap`. -/
def exHandle : result_handle := ⟨some 1⟩

/-- Witness for [C2]: on a concrete heap, stepping `next` through the
copy is the very same call as through the original, and both observe the
same position afterwards. -/
theorem result_copies_share_state_witness :
    hnav exHeap (result_copy exHandle) .next = hnav exHeap exHandle .next
    ∧ (∃ b h2, hnav exHeap (result_copy exHandle) .next = .ok (b, h2)
        ∧ hposition h2 exHandle = hposition h2 (result_copy exHandle)
        ∧ hposition h2 exHandle = some ((nav_apply .next (exHeap 1)).2.pos)) := by
  have h := result_copies_share_state exHeap exHandle .next 1 rfl
  exact ⟨h.2.2.1, h.2.2.2.1⟩

/-- `result_iterator` (nanodbc.h lines 2095-2162): holds a `result`
member (a handle sharing the state of the iterated result). -/
structure result_iterator where
  result_ : result_handle
deriving DecidableEq, Repr

/-- The default-constructed iterator (nanodbc.h line 2105): its member is
the empty result; it is the end-of-result iterator (nanodbc.h lines
2170-2179). -/
def result_iterator.endIter : result_iterator :=
  ⟨result_handle.empty⟩

/-- `result_iterator::operator++` (nanodbc.h lines 2126-2138): calls
`result_.next()` inside a try block; if `next` returns false the member
is replaced by a default-constructed result, and if anything is thrown
the catch-all does the same, so the increment itself is a total
operation that never propagates an exception. -/
def result_iterator.inc (h : Heap) (it : result_iterator) :
    result_iterator × Heap :=
  match hnav h it.result_ .next with
  | .ok (true, h2) => (it, h2)
  | .ok (false, h2) => (result_iterator.endIter, h2)
  | .error _ => (result_iterator.endIter, h)

/-- `result_iterator::operator==` (nanodbc.h lines 2149-2155): two valid
iterators are equal when tied to the same native statement handle;
otherwise they are equal when both are empty. -/
def result_iterator.beq (h : Heap) (a b : result_iterator) : Bool :=
  if a.result_.valid && b.result_.valid then
    native_stmt_handle h a.result_ == native_stmt_handle h b.result_
  else
    !a.result_.valid && !b.result_.valid

/-- The converting constructor `result_iterator(result& r)` (nanodbc.h
lines 2108-2112): stores a handle sharing the state of `r` and immediately
performs one increment. -/
def result_iterator.mk_from (h : Heap) (r : result_handle) :
    result_iterator × Heap :=
  result_iterator.inc h ⟨r⟩

/-- `begin(result&)` (nanodbc.h lines 2165-2168): constructs a
`result_iterator` from the result. -/
def begin_result (h : Heap) (r : result_handle) : result_iterator × Heap :=
  result_iterator.mk_from h r

/-- `end(result&)` (nanodbc.h lines 2176-2179): the default-constructed
end-of-result iterator. -/
def end_result (_h : Heap) (_r : result_handle) : result_iterator :=
  result_iterator.endIter

/-- Incrementing a result_iterator never propagates an exception (`inc`
is a total function by construction, translating the catch-all): when
the underlying `next` returns false, or raises any error, the iterator
becomes the default-constructed one and compares equal to the
end-of-result iterator — a fetch failure is indistinguishable from
reaching the end.  [C8] -/
theorem iterator_increment_swallows_failures (h : Heap) (it : result_iterator)
    (hres : (∃ h2, hnav h it.result_ .next = .ok (false, h2))
      ∨ (∃ e, hnav h it.result_ .next = .error e)) :
    (result_iterator.inc h it).1 = result_iterator.endIter
    ∧ result_iterator.beq (result_iterator.inc h it).2
        (result_iterator.inc h it).1 (end_result (result_iterator.inc h it).2 it.result_)
        = true := by
  have hend : ∀ h3 : Heap,
      result_iterator.beq h3 result_iterator.endIter result_iterator.endIter = true := by
    intro h3
    simp [result_iterator.beq, result_iterator.endIter, result_handle.empty,
      result_handle.valid]
  rcases hres with ⟨h2, heq⟩ | ⟨e, heq⟩ <;>
    · unfold result_iterator.inc
      rw [heq]
      exact ⟨rfl, hend _⟩

/-- Witness for [C8]: incrementing an iterator over `exEmptyResult`
(whose `next` returns false) yields the end-of-result iterator. -/
theorem iterator_increment_swallows_failures_witness :
    (result_iterator.inc exHeap ⟨⟨some 0⟩⟩).1 = result_iterator.endIter
    ∧ result_iterator.beq (result_iterator.inc exHeap ⟨⟨some 0⟩⟩).2
        (result_iterator.inc exHeap ⟨⟨some 0⟩⟩).1
        (end_result (result_iterator.inc exHeap ⟨⟨some 0⟩⟩).2 ⟨some 0⟩) = true := by
  exact iterator_increment_swallows_failures exHeap ⟨⟨some 0⟩⟩
    (Or.inl ⟨Heap.update exHeap 0 (nav_apply .next (exHeap 0)).2, rfl⟩)

/-- Constructing a `result_iterator` from a result — and hence
`begin(r)` — immediately performs one increment, invoking `next` on the
shared state before any dereference: on a fresh non-empty result the
cursor moves to row 1 and that position is observed through the original
result handle; on a fresh empty result the constructed iterator is
already the end-of-result iterator.  [C10] -/
theorem iterator_construction_advances_cursor (h : Heap) (r : result_handle)
    (p : Nat) (hv : r.impl_ = some p)
    (hfresh : (h p).pos = 0 ∧ (h p).at_end = false) :
    begin_result h r = result_iterator.inc h ⟨r⟩
    ∧ (0 < (h p).rows.length →
        (begin_result h r).1 = ⟨r⟩
        ∧ hposition (begin_result h r).2 r = some 1)
    ∧ ((h p).rows.length = 0 →
        (begin_result h r).1 = result_iterator.endIter
        ∧ result_iterator.beq (begin_result h r).2 (begin_result h r).1
            (end_result (begin_result h r).2 r) = true) := by
  obtain ⟨hp0, hae⟩ := hfresh
  refine ⟨rfl, ?_, ?_⟩
  · intro hrows
    have hstep : (h p).next = (true, (h p).populate 1) := by
      unfold result_impl.next
      rw [hp0, hae, if_pos ⟨rfl, hrows⟩]
    have hnavstep : hnav h r .next =
        .ok (true, Heap.update h p ((h p).populate 1)) := by
      unfold hnav
      rw [hv]
      simp [nav_apply, hstep]
    have hinc : result_iterator.inc h ⟨r⟩ =
        (⟨r⟩, Heap.update h p ((h p).populate 1)) := by
      unfold result_iterator.inc
      rw [hnavstep]
    refine ⟨by rw [show begin_result h r = result_iterator.inc h ⟨r⟩ from rfl, hinc], ?_⟩
    rw [show begin_result h r = result_iterator.inc h ⟨r⟩ from rfl, hinc]
    unfold hposition Heap.update
    rw [hv]
    simp [result_impl.populate]
  · intro hrows
    have hstep : (h p).next = (false, { h p with at_end := true }) := by
      unfold result_impl.next
      simp [hp0, hrows]
    have hnavstep : hnav h r .next =
        .ok (false, Heap.update h p { h p with at_end := true }) := by
      unfold hnav
      rw [hv]
      simp [nav_apply, hstep]
    have hinc : result_iterator.inc h ⟨r⟩ =
        (result_iterator.endIter, Heap.update h p { h p with at_end := true }) := by
      unfold result_iterator.inc
      rw [hnavstep]
    rw [show begin_result h r = result_iterator.inc h ⟨r⟩ from rfl, hinc]
    refine ⟨rfl, ?_⟩
    simp [result_iterator.beq, end_result, result_iterator.endIter,
      result_handle.empty, result_handle.valid]

/-- A one-column, two-row result sitting fresh (before-first) in the
heap at pointer 3. -/
def exFreshResult : result_impl :=
  { columnsMeta := [{ name := "n", sqltype := 4, ctype := 4, size := 4,
                      decimal_digits := 0, is_long := false }]
    rows := [[some (Value.intV 1)], [some (Value.intV 2)]]
    bound := [true]
    indBuf := [false]
    indValid := [false]
    pos := 0
    at_end := false
    rowCount := some 2
    moreResults := []
    stmtHandle := 3 }

/-- A heap carrying `exFreshResult` at pointer 3. -/
def exHeap2 : Heap :=
  fun n => if n = 3 then exFreshResult else exEmptyResult

/-- Witness for [C10]: beginning iteration over the concrete fresh
two-row result advances the shared cursor to row 1, observed through the
original result handle. -/
theorem iterator_construction_advances_cursor_witness :
    (begin_result exHeap2 ⟨some 3⟩).1 = ⟨⟨some 3⟩⟩
    ∧ hposition (begin_result exHeap2 ⟨some 3⟩).2 ⟨some 3⟩ = some 1 := by
  exact (iterator_construction_advances_cursor exHeap2 ⟨some 3⟩ 3 rfl
    ⟨rfl, rfl⟩).2.1 (by decide)

/-- Native ODBC calls the binder may issue; a bind operation reports the
list of native calls it made, so local-vs-native detection order is
observable. -/
inductive native_call where
  | SQLDescribeParam (idx : Nat)
  | SQLBindParameter (idx : Nat)
deriving DecidableEq, Repr

/-- A batch of string values laid out in fixed-stride slots with the
element width used for the layout. -/
structure string_batch where
  width : Nat
  slots : List String
deriving DecidableEq, Repr

/-- Modelled from the spec: the prepared-statement state behind
`statement` (the `statement_impl` body is not in the snapshot):
the described parameter count (spec section 4.3: the index is validated
against the described parameter count of the statement), plus the buffers
bound so far. -/
structure statement_state where
  param_count : Nat
  bound_scalars : List (Nat × Value)
  bound_string_batches : List (Nat × string_batch)
deriving DecidableEq, Repr

/-- Modelled from the spec: scalar `statement::bind` (nanodbc.h lines
1131-1144, body not in the snapshot): the parameter index is validated
against the described parameter count before any native call; an
out-of-range index fails with `index_range_error` and no native call is
issued, otherwise the parameter is described and bound, replacing any
prior binding of the same index (spec sections 4.3 and 7). -/
def statement_state.bind (st : statement_state) (param_index : Nat)
    (value : Value) (_direction : param_direction) :
    List native_call × Except odbc_error statement_state :=
  if param_index < st.param_count then
    ([.SQLDescribeParam param_index, .SQLBindParameter param_index],
     .ok { st with bound_scalars :=
        (param_index, value) :: st.bound_scalars.filter (fun q => q.1 != param_index) })
  else ([], .error .index_range_error)

/-- The maximum element width across a batch of strings. -/
def max_len (values : List String) : Nat :=
  values.foldr (fun v m => max v.length m) 0

/-- Modelled from the spec: batched `statement::bind_strings` (nanodbc.h
lines 1240-1260, body not in the snapshot): validates the index, then
lays each string out in a fixed-stride slot of width `value_size` when
the caller declared one, or of the maximum element width otherwise; a
value longer than the declared width is rejected with a local error —
never silently truncated (spec section 4.3). -/
def statement_state.bind_strings (st : statement_state) (param_index : Nat)
    (values : List String) (value_size : Option Nat)
    (_direction : param_direction) :
    List native_call × Except odbc_error statement_state :=
  if param_index < st.param_count then
    let width := value_size.getD (max_len values)
    if values.any (fun v => width < v.length) then
      ([], .error .programming_error)
    else
      ([.SQLDescribeParam param_index, .SQLBindParameter param_index],
       .ok { st with bound_string_batches :=
          (param_index, { width := width, slots := values })
            :: st.bound_string_batches.filter (fun q => q.1 != param_index) })
  else ([], .error .index_range_error)

/-- For every statement and every bind with a parameter index at or past
the described parameter count: the bind fails with `index_range_error` —
a local error, not a `database_error` — and the empty native-call trace
shows it is detected before any native call is issued.  [C4] -/
theorem bind_index_out_of_range_local (st : statement_state)
    (param_index : Nat) (value : Value) (d : param_direction)
    (hidx : st.param_count ≤ param_index) :
    st.bind param_index value d = ([], .error .index_range_error)
    ∧ odbc_error.is_local .index_range_error = true
    ∧ odbc_error.index_range_error ≠ odbc_error.database_error := by
  have hnot : ¬ param_index < st.param_count := Nat.not_lt.mpr hidx
  unfold statement_state.bind
  rw [if_neg hnot]
  exact ⟨rfl, rfl, by decide⟩

/-- A two-parameter prepared statement with nothing bound yet. -/
def exStatement : statement_state :=
  { param_count := 2, bound_scalars := [], bound_string_batches := [] }

/-- Witness for [C4]: binding parameter 2 of a two-parameter statement
fails locally with `index_range_error` and issues no native call. -/
theorem bind_index_out_of_range_local_witness :
    exStatement.bind 2 (Value.intV 5) .PARAM_IN = ([], .error .index_range_error)
    ∧ odbc_error.is_local .index_range_error = true := by
  have h := bind_index_out_of_range_local exStatement 2 (Value.intV 5) .PARAM_IN
    (by decide)
  exact ⟨h.1, h.2.1⟩

/-- For every batched string bind with a caller-declared fixed element
width: if some value in the batch is longer than the declared width, the
bind fails with a local error before any native call — and whenever a
string batch bind succeeds (with any width choice), the stored slots are
exactly the original values, so a value is never silently truncated to
the declared width.  [C5] -/
theorem bind_strings_overlong_rejected (st : statement_state)
    (param_index : Nat) (values : List String) (w : Nat)
    (d : param_direction)
    (hidx : param_index < st.param_count)
    (hlong : ∃ v ∈ values, w < v.length) :
    st.bind_strings param_index values (some w) d = ([], .error .programming_error)
    ∧ odbc_error.is_local .programming_error = true
    ∧ (∀ ws st2, (st.bind_strings param_index values ws d).2 = .ok st2 →
        st2.bound_string_batches.lookup param_index =
          some { width := ws.getD (max_len values), slots := values }) := by
  refine ⟨?_, rfl, ?_⟩
  · have hany : values.any (fun v => w < v.length) = true := by
      rcases hlong with ⟨v, hv, hw⟩
      exact List.any_eq_true.mpr ⟨v, hv, by simpa using hw⟩
    unfold statement_state.bind_strings
    rw [if_pos hidx]
    simp only [Option.getD_some]
    rw [if_pos hany]
  · intro ws st2 hok
    unfold statement_state.bind_strings at hok
    rw [if_pos hidx] at hok
    by_cases hany : values.any (fun v => ws.getD (max_len values) < v.length) = true
    · rw [if_pos hany] at hok
      simp at hok
    · rw [if_neg hany] at hok
      simp only [Except.ok.injEq] at hok
      rw [← hok]
      simp [List.lookup]

/-- Witness for [C5]: binding the batch ["ab", "wxyz"] with declared
width 3 fails locally (the second value is longer), and a succeeding
bind of the same batch with width 4 stores the values untruncated. -/
theorem bind_strings_overlong_rejected_witness :
    exStatement.bind_strings 0 ["ab", "wxyz"] (some 3) .PARAM_IN
      = ([], .error .programming_error)
    ∧ (exStatement.bind_strings 0 ["ab", "wxyz"] (some 4) .PARAM_IN).2.map
        (fun st2 => st2.bound_string_batches.lookup 0)
      = .ok (some { width := 4, slots := ["ab", "wxyz"] }) := by
  have h := bind_strings_overlong_rejected exStatement 0 ["ab", "wxyz"] 3 .PARAM_IN
    (by decide) ⟨"wxyz", by simp, by decide⟩
  refine ⟨h.1, ?_⟩
  have hres : (exStatement.bind_strings 0 ["ab", "wxyz"] (some 4) .PARAM_IN).2
      = .ok { param_count := 2, bound_scalars := [],
              bound_string_batches := [(0, { width := 4, slots := ["ab", "wxyz"] })] } :=
    rfl
  rw [hres]
  exact congrArg Except.ok (h.2.2 (some 4) _ hres)

end Nanodbc
